import Mathlib

/-!
Verification of the FFTS unified build interface (`build.py`).

The script manages a JSON build configuration (a Python `dict` from string
keys to booleans, strings and integers) and drives the phases
configure / build / test / install / clean.  We embed the configuration as
an association list with Python `dict` semantics (assignment updates an
existing key in place, otherwise appends), and the effectful phases as
functions over explicit environment records (filesystem facts, subprocess
outcomes, stdin answers).
-/

set_option autoImplicit false

namespace FFTS

/-- A JSON-representable configuration value: the script only ever stores
booleans, strings and integers. -/
inductive JVal where
  | vb (b : Bool)
  | vs (s : String)
  | vn (n : Nat)
  deriving DecidableEq, Repr

/-- A configuration: Python `dict` from string keys to values, embedded as an
association list whose keys are unique in practice. -/
abbrev Dict := List (String × JVal)

/-- `d[key]` lookup: first entry with the given key. -/
def Dict.get? : Dict → String → Option JVal
  | [], _ => none
  | (k, v) :: rest, key => if k = key then some v else Dict.get? rest key

/-- `d[key] = val` with Python `dict` semantics: update an existing key in
place, otherwise append the new pair at the end. -/
def Dict.insert : Dict → String → JVal → Dict
  | [], key, val => [(key, val)]
  | (k, v) :: rest, key, val =>
      if k = key then (k, val) :: rest else (k, v) :: Dict.insert rest key val

/-- `d.update(o)`: assign every pair of `o` into `d`, in order. -/
def Dict.update (d : Dict) (o : Dict) : Dict :=
  o.foldl (fun acc kv => acc.insert kv.1 kv.2) d

/-- Assoc-list lookup for the preset table (`self.presets[name]`). -/
def alookup {α : Type} : List (String × α) → String → Option α
  | [], _ => none
  | (k, v) :: rest, key => if k = key then some v else alookup rest key

/-- Python `str.lower()`, character by character. -/
def strLower (s : String) : String :=
  ⟨s.data.map Char.toLower⟩

/-- Python `str.strip()`: drop whitespace from both ends. -/
def strTrim (s : String) : String :=
  ⟨((s.data.dropWhile Char.isWhitespace).reverse.dropWhile Char.isWhitespace).reverse⟩

/-- Does `hay` start with `needle`? -/
def startsWithL : List Char → List Char → Bool
  | [], _ => true
  | _ :: _, [] => false
  | a :: as, b :: bs => a == b && startsWithL as bs

/-- Does `needle` occur contiguously inside `hay`? -/
def containsSub (hay needle : List Char) : Bool :=
  match hay with
  | [] => needle.isEmpty
  | _ :: tl => startsWithL needle hay || containsSub tl needle

/-- Python's substring test `needle in hay`. -/
def strContains (hay needle : String) : Bool :=
  containsSub hay.toList needle.toList

/-- Python `os.cpu_count() or 1`: `None` and `0` are falsy. -/
def orOne : Option Nat → Nat
  | none => 1
  | some n => if n = 0 then 1 else n

/-- The platform-independent part of `BuildConfig.get_default_config`
(the `config` literal before the platform-specific branches). -/
def baseConfig (cpu : Option Nat) : Dict :=
  [ ("build_type", JVal.vs "Release"),
    ("build_dir", JVal.vs "build"),
    ("install_dir", JVal.vs "install"),
    ("enable_tests", JVal.vb true),
    ("enable_examples", JVal.vb false),
    ("enable_benchmarks", JVal.vb false),
    ("enable_documentation", JVal.vb false),
    ("enable_coverage", JVal.vb false),
    ("enable_sanitizers", JVal.vb false),
    ("enable_static", JVal.vb true),
    ("enable_shared", JVal.vb false),
    ("enable_neon", JVal.vb false),
    ("enable_vfp", JVal.vb false),
    ("enable_sse", JVal.vb true),
    ("enable_sse2", JVal.vb true),
    ("enable_sse3", JVal.vb true),
    ("enable_avx", JVal.vb false),
    ("enable_avx2", JVal.vb false),
    ("disable_dynamic_code", JVal.vb false),
    ("generate_position_independent_code", JVal.vb false),
    ("parallel_jobs", JVal.vn (orOne cpu)) ]

/-- `BuildConfig.get_default_config`: platform defaults as a function of
`platform.system()`, `platform.machine()` and `os.cpu_count()`. -/
def get_default_config (systemRaw machineRaw : String) (cpu : Option Nat) : Dict :=
  let system := strLower systemRaw
  let machine := strLower machineRaw
  let config := baseConfig cpu
  if system = "linux" then
    if strContains machine "arm" || strContains machine "aarch64" then
      config.insert "enable_neon" (JVal.vb true)
    else if strContains machine "x86_64" || strContains machine "amd64" then
      ((config.insert "enable_sse" (JVal.vb true)).insert
          "enable_sse2" (JVal.vb true)).insert "enable_sse3" (JVal.vb true)
    else
      config
  else if system = "darwin" then
    (if strContains machine "arm64" then
        config.insert "enable_neon" (JVal.vb true)
      else config).insert "generate_position_independent_code" (JVal.vb true)
  else if system = "windows" then
    (config.insert "enable_shared" (JVal.vb true)).insert "enable_static" (JVal.vb true)
  else
    config

/-- The fixed preset table `self.presets`. -/
def presets : List (String × Dict) :=
  [ ("debug",
      [ ("build_type", JVal.vs "Debug"),
        ("enable_tests", JVal.vb true),
        ("enable_coverage", JVal.vb true),
        ("enable_sanitizers", JVal.vb true),
        ("enable_static", JVal.vb true),
        ("enable_shared", JVal.vb false) ]),
    ("release",
      [ ("build_type", JVal.vs "Release"),
        ("enable_tests", JVal.vb true),
        ("enable_coverage", JVal.vb false),
        ("enable_sanitizers", JVal.vb false),
        ("enable_static", JVal.vb true),
        ("enable_shared", JVal.vb true) ]),
    ("minimal",
      [ ("build_type", JVal.vs "Release"),
        ("enable_tests", JVal.vb false),
        ("enable_coverage", JVal.vb false),
        ("enable_sanitizers", JVal.vb false),
        ("enable_static", JVal.vb true),
        ("enable_shared", JVal.vb false),
        ("disable_dynamic_code", JVal.vb true) ]),
    ("android",
      [ ("build_type", JVal.vs "Release"),
        ("enable_tests", JVal.vb false),
        ("enable_static", JVal.vb true),
        ("enable_shared", JVal.vb false),
        ("enable_neon", JVal.vb true),
        ("generate_position_independent_code", JVal.vb true) ]),
    ("ios",
      [ ("build_type", JVal.vs "Release"),
        ("enable_tests", JVal.vb false),
        ("enable_static", JVal.vb true),
        ("enable_shared", JVal.vb false),
        ("enable_neon", JVal.vb true),
        ("generate_position_independent_code", JVal.vb true) ]) ]

/-- The names of the preset table, the fixed set accepted by `--preset`. -/
def presetNames : List String := ["debug", "release", "minimal", "android", "ios"]

/-- The mutable state of a `BuildConfig` object: its `current_config` field. -/
structure ConfigStore where
  current_config : Dict
  deriving DecidableEq, Repr

/-- `BuildConfig.apply_preset` as a state transformer: it raises `ValueError`
on an unknown name, otherwise returns `self.current_config.copy()` updated
with the preset; in both cases `self.current_config` is left untouched
(the method never assigns to it). -/
def applyPresetState (st : ConfigStore) (name : String) : Except String Dict × ConfigStore :=
  match alookup presets name with
  | none => (Except.error ("Unknown preset: " ++ name), st)
  | some p => (Except.ok (Dict.update st.current_config p), st)

/-- `BuildConfig.apply_preset` on the configuration value alone. -/
def apply_preset (current : Dict) (name : String) : Except String Dict :=
  (applyPresetState ⟨current⟩ name).fst

/-- The persisted `build_config.json` file: absent; present but raising
`json.JSONDecodeError` (decodable text that fails to parse) or `IOError` on
open/read; present but raising `UnicodeDecodeError` (bytes not decodable in
the file encoding) from the read inside `json.load`; or present with a
parsed dictionary. -/
inductive FileState where
  | absent
  | corruptParse
  | corruptEncoding
  | valid (d : Dict)
  deriving DecidableEq, Repr

/-- What a call to `BuildConfig.load_config` does: return a dictionary (the
flag records whether the "Could not load config file" warning was printed),
or let an exception escape the method. -/
inductive LoadResult where
  | ok (config : Dict) (warned : Bool)
  | raised
  deriving DecidableEq, Repr

/-- `BuildConfig.load_config`: returns the parsed file if it exists and
parses; on `json.JSONDecodeError` or `IOError` prints the warning and falls
through to the platform defaults; an absent file gives the defaults with no
warning.  The `except (json.JSONDecodeError, IOError)` clause does not catch
`UnicodeDecodeError`, so an existing file whose bytes do not decode makes
the exception escape the method. -/
def load_config (fs : FileState) (system machine : String) (cpu : Option Nat) :
    LoadResult :=
  match fs with
  | FileState.valid d => LoadResult.ok d false
  | FileState.corruptParse =>
      LoadResult.ok (get_default_config system machine cpu) true
  | FileState.corruptEncoding => LoadResult.raised
  | FileState.absent => LoadResult.ok (get_default_config system machine cpu) false

/-- `BuildConfig.save_config`: on success the file now holds the dictionary;
on an `IOError` the method only prints and the file keeps its prior state. -/
def save_config (writeOk : Bool) (prev : FileState) (d : Dict) : FileState :=
  if writeOk then FileState.valid d else prev

/-- Outcome of an attempted `shutil.rmtree`. -/
inductive RmRes where
  | ok
  | err
  deriving DecidableEq, Repr

/-- The filesystem facts `BuildSystem.clean` depends on: whether each
directory exists and what `rmtree` would do on it. -/
structure CleanFS where
  buildExists : Bool
  installExists : Bool
  rmBuildRes : RmRes
  rmInstallRes : RmRes
  deriving DecidableEq, Repr

/-- A directory removal attempted by `clean`. -/
inductive CleanStep where
  | rmBuild
  | rmInstall
  deriving DecidableEq, Repr

/-- `BuildSystem.clean`: remove the build directory if it exists, returning
`False` at once if that raises `OSError`; then remove the install directory
if it exists, returning `False` if that raises.  The second component lists
the removals actually attempted, in order. -/
def clean (fs : CleanFS) : Bool × List CleanStep :=
  if fs.buildExists then
    match fs.rmBuildRes with
    | RmRes.err => (false, [CleanStep.rmBuild])
    | RmRes.ok =>
      if fs.installExists then
        match fs.rmInstallRes with
        | RmRes.err => (false, [CleanStep.rmBuild, CleanStep.rmInstall])
        | RmRes.ok => (true, [CleanStep.rmBuild, CleanStep.rmInstall])
      else (true, [CleanStep.rmBuild])
  else
    if fs.installExists then
      match fs.rmInstallRes with
      | RmRes.err => (false, [CleanStep.rmInstall])
      | RmRes.ok => (true, [CleanStep.rmInstall])
    else (true, [])

/-- Result of `BuildSystem.build`: success, the distinct "Build directory not
found. Run configure first." precondition failure, or a failure of the spawned
`cmake --build` subprocess. -/
inductive BuildOutcome where
  | success
  | notConfigured
  | buildFailed
  deriving DecidableEq, Repr

/-- `BuildSystem.build`: fails fast with the "not configured" error when the
build directory is absent; otherwise spawns `cmake --build` and reports its
outcome.  The second component records whether the subprocess was spawned. -/
def buildPhase (buildDirExists : Bool) (spawnOk : Bool) (_cfg : Dict) :
    BuildOutcome × Bool :=
  if buildDirExists = false then (BuildOutcome.notConfigured, false)
  else if spawnOk then (BuildOutcome.success, true)
  else (BuildOutcome.buildFailed, true)

/-- The stubbed outcomes of the four phase subroutines for an `all` run. -/
structure PhaseRes where
  configureOk : Bool
  buildOk : Bool
  testOk : Bool
  installOk : Bool
  deriving DecidableEq, Repr

/-- A phase of the composite `all` action. -/
inductive Phase where
  | configure
  | build
  | test
  | install
  deriving DecidableEq, Repr

/-- The `all` action of `main`:
`configure(...) and build(...) and test() and install()`, with Python's
short-circuiting `and`.  The second component lists the phases invoked, in
order. -/
def runAll (p : PhaseRes) : Bool × List Phase :=
  if p.configureOk then
    if p.buildOk then
      if p.testOk then
        (p.installOk, [Phase.configure, Phase.build, Phase.test, Phase.install])
      else (false, [Phase.configure, Phase.build, Phase.test])
    else (false, [Phase.configure, Phase.build])
  else (false, [Phase.configure])

/-- `ans.strip().lower() in ['y', 'yes']`. -/
def isYes (ans : String) : Bool :=
  strLower (strTrim ans) = "y" || strLower (strTrim ans) = "yes"

/-- `ans.strip().lower() in ['n', 'no']`. -/
def isNo (ans : String) : Bool :=
  strLower (strTrim ans) = "n" || strLower (strTrim ans) = "no"

/-- One yes/no wizard question acting on the configuration: `y`/`yes` sets the
key true, `n`/`no` sets it false, anything else (including empty input) leaves
the dictionary untouched. -/
def applyYesNo (d : Dict) (key : String) (ans : String) : Dict :=
  if isYes ans then d.insert key (JVal.vb true)
  else if isNo ans then d.insert key (JVal.vb false)
  else d

/-- The build-type selection loop of the wizard: consume answers until an
empty answer (keep the current value) or a valid `1`-`4` choice; invalid
answers are re-asked. -/
def pickBuildType : List String → Option String
  | [] => none
  | c :: rest =>
    let t := strTrim c
    if t = "" then none
    else if t = "1" then some "Debug"
    else if t = "2" then some "Release"
    else if t = "3" then some "RelWithDebInfo"
    else if t = "4" then some "MinSizeRel"
    else pickBuildType rest

/-- The stdin answers consumed by `interactive_config`, in prompt order. -/
structure WizInputs where
  btChoices : List String
  staticAns : String
  sharedAns : String
  testsAns : String
  neonAns : String
  sseAns : String
  saveAns : String
  deriving Repr

/-- `interactive_config`: start from `current.copy()`, run the build-type
loop, then the five yes/no questions in prompt order, and return the edited
dictionary (the optional save to disk does not change the returned value). -/
def interactive_config (current : Dict) (ins : WizInputs) : Dict :=
  let c0 :=
    match pickBuildType ins.btChoices with
    | none => current
    | some bt => current.insert "build_type" (JVal.vs bt)
  let c1 := applyYesNo c0 "enable_static" ins.staticAns
  let c2 := applyYesNo c1 "enable_shared" ins.sharedAns
  let c3 := applyYesNo c2 "enable_tests" ins.testsAns
  let c4 := applyYesNo c3 "enable_neon" ins.neonAns
  applyYesNo c4 "enable_sse" ins.sseAns

/-- The expected value of a yes/no option after one wizard question, as the
spec states it: `y`/`yes` forces `true`, `n`/`no` forces `false`, anything
else keeps the prior value. -/
def yesnoUpd (prev : Option JVal) (ans : String) : Option JVal :=
  if isYes ans then some (JVal.vb true)
  else if isNo ans then some (JVal.vb false)
  else prev

/-- The configurations reachable from the platform defaults by the script's
own derivation steps: applying a preset, an interactive-wizard edit, or
persisting and re-loading (including re-loading a corrupted file). -/
inductive Derived (system machine : String) (cpu : Option Nat) : Dict → Prop where
  | default : Derived system machine cpu (get_default_config system machine cpu)
  | preset {d c : Dict} (name : String) :
      Derived system machine cpu d → apply_preset d name = Except.ok c →
      Derived system machine cpu c
  | interactive {d : Dict} (ins : WizInputs) :
      Derived system machine cpu d →
      Derived system machine cpu (interactive_config d ins)
  | loadSaved {d c : Dict} {w : Bool} (prev : FileState) :
      Derived system machine cpu d →
      load_config (save_config true prev d) system machine cpu =
        LoadResult.ok c w →
      Derived system machine cpu c
  | loadCorruptParse {c : Dict} {w : Bool} :
      load_config FileState.corruptParse system machine cpu =
        LoadResult.ok c w →
      Derived system machine cpu c

theorem Dict.get?_insert_self (d : Dict) (key : String) (v : JVal) :
    (d.insert key v).get? key = some v := by
  induction d with
  | nil => simp [Dict.insert, Dict.get?]
  | cons kv rest ih =>
    obtain ⟨k₁, v₁⟩ := kv
    by_cases h : k₁ = key
    · simp [Dict.insert, Dict.get?, h]
    · simp [Dict.insert, Dict.get?, h, ih]

theorem Dict.get?_insert_ne (d : Dict) (key : String) (v : JVal) {k : String}
    (h : k ≠ key) : (d.insert key v).get? k = d.get? k := by
  induction d with
  | nil => simp [Dict.insert, Dict.get?, Ne.symm h]
  | cons kv rest ih =>
    obtain ⟨k₁, v₁⟩ := kv
    by_cases h₁ : k₁ = key
    · subst h₁
      simp [Dict.insert, Dict.get?, Ne.symm h]
    · simp only [Dict.insert, if_neg h₁, Dict.get?]
      by_cases h₂ : k₁ = k
      · simp [h₂]
      · simp [h₂, ih]

theorem Dict.get?_insert_ne_none (d : Dict) (key : String) (v : JVal) (k : String)
    (h : d.get? k ≠ none) : (d.insert key v).get? k ≠ none := by
  by_cases hk : k = key
  · subst hk
    rw [Dict.get?_insert_self]
    simp
  · rwa [Dict.get?_insert_ne _ _ _ hk]

theorem Dict.update_nil (d : Dict) : d.update [] = d := rfl

theorem Dict.update_cons (d : Dict) (kv : String × JVal) (o : List (String × JVal)) :
    d.update (kv :: o) = (d.insert kv.1 kv.2).update o := rfl

theorem Dict.get?_update_ne_none (d : Dict) (o : Dict) (k : String)
    (h : d.get? k ≠ none) : (d.update o).get? k ≠ none := by
  induction o generalizing d with
  | nil => exact h
  | cons kv o ih =>
    rw [Dict.update_cons]
    exact ih _ (Dict.get?_insert_ne_none _ _ _ _ h)

theorem apply_preset_ok {d c : Dict} {name : String}
    (h : apply_preset d name = Except.ok c) :
    ∃ p, alookup presets name = some p ∧ c = Dict.update d p := by
  unfold apply_preset applyPresetState at h
  cases he : alookup presets name with
  | none => rw [he] at h; exact absurd h (by simp)
  | some p =>
    rw [he] at h
    simp only at h
    exact ⟨p, rfl, (Except.ok.injEq _ _ ▸ h).symm⟩

theorem get?_applyYesNo_ne_none {d : Dict} (key ans : String) {k : String}
    (h : d.get? k ≠ none) : (applyYesNo d key ans).get? k ≠ none := by
  unfold applyYesNo
  split
  · exact Dict.get?_insert_ne_none _ _ _ _ h
  · split
    · exact Dict.get?_insert_ne_none _ _ _ _ h
    · exact h

theorem get?_interactive_ne_none {d : Dict} (ins : WizInputs) {k : String}
    (h : d.get? k ≠ none) : (interactive_config d ins).get? k ≠ none := by
  unfold interactive_config
  apply get?_applyYesNo_ne_none
  apply get?_applyYesNo_ne_none
  apply get?_applyYesNo_ne_none
  apply get?_applyYesNo_ne_none
  apply get?_applyYesNo_ne_none
  cases pickBuildType ins.btChoices with
  | none => exact h
  | some bt => exact Dict.get?_insert_ne_none _ _ _ _ h

theorem get?_applyYesNo_self (d : Dict) (key ans : String) :
    (applyYesNo d key ans).get? key = yesnoUpd (d.get? key) ans := by
  cases hy : isYes ans <;> cases hn : isNo ans <;>
    simp [applyYesNo, yesnoUpd, hy, hn, Dict.get?_insert_self]

theorem get?_applyYesNo_ne (d : Dict) (key ans : String) {k : String}
    (h : k ≠ key) : (applyYesNo d key ans).get? k = d.get? k := by
  unfold applyYesNo
  split
  · exact Dict.get?_insert_ne _ _ _ h
  · split
    · exact Dict.get?_insert_ne _ _ _ h
    · rfl

/-- C1, counterexample.  The claim that the two removals of `clean` are
independent fails: on a filesystem where the build directory exists and its
removal raises while the install directory exists and would be removable,
`clean` returns failure without ever attempting the install-directory
removal. -/
theorem clean_counterexample :
    (clean ⟨true, true, RmRes.err, RmRes.ok⟩).fst = false ∧
    CleanStep.rmInstall ∉ (clean ⟨true, true, RmRes.err, RmRes.ok⟩).snd := by
  decide

/-- C1, amended.  The removals of `clean` are sequential, not independent:
if removing the build directory fails, `clean` returns failure at once and
the install-directory removal is not attempted; when the build-directory
removal does not fail, the install-directory removal is attempted whenever
that directory exists; and any removal failure makes `clean` return failure
overall. -/
theorem clean_amended (fs : CleanFS) :
    (fs.buildExists = true → fs.rmBuildRes = RmRes.err →
      clean fs = (false, [CleanStep.rmBuild])) ∧
    ((fs.buildExists = true → fs.rmBuildRes = RmRes.ok) → fs.installExists = true →
      CleanStep.rmInstall ∈ (clean fs).snd) ∧
    (fs.installExists = true → fs.rmInstallRes = RmRes.err →
      (fs.buildExists = true → fs.rmBuildRes = RmRes.ok) → (clean fs).fst = false) := by
  obtain ⟨b, i, rb, ri⟩ := fs
  cases b <;> cases i <;> cases rb <;> cases ri <;> decide

/-- C1, witness for the amended theorem at a concrete filesystem state. -/
theorem clean_amended_witness :
    clean ⟨true, true, RmRes.err, RmRes.ok⟩ = (false, [CleanStep.rmBuild]) :=
  (clean_amended ⟨true, true, RmRes.err, RmRes.ok⟩).1 rfl rfl

/-- C3.  Round-trip of persistence: saving any configuration (with the write
succeeding) and then loading the file yields that configuration back, without
a warning. -/
theorem save_load_roundtrip (cfg : Dict) (prev : FileState)
    (system machine : String) (cpu : Option Nat) :
    load_config (save_config true prev cfg) system machine cpu =
      LoadResult.ok cfg false :=
  rfl

/-- C4, code bug.  The claim says every corrupted persisted file loads as
exactly the platform defaults plus a warning and never an unhandled failure,
and the `except` clause of `load_config` is clearly meant to do that; but it
catches only `json.JSONDecodeError` and `IOError`, so a persisted file whose
bytes do not decode raises `UnicodeDecodeError` from inside `json.load` and
the exception escapes `load_config` instead of the warning-and-defaults
fallback, which only the parse- and I/O-failure path takes. -/
theorem load_corrupt_paths (system machine : String) (cpu : Option Nat) :
    load_config FileState.corruptEncoding system machine cpu =
        LoadResult.raised ∧
      load_config FileState.corruptParse system machine cpu =
        LoadResult.ok (get_default_config system machine cpu) true ∧
      LoadResult.raised ≠
        LoadResult.ok (get_default_config system machine cpu) true :=
  ⟨rfl, rfl, fun h => LoadResult.noConfusion h⟩

/-- C6.  The composite `all` action runs configure, build, test, install in
that order and short-circuits at the first failure: its success is the
conjunction of the four phase outcomes, and after a failing phase no later
phase is invoked — in particular a failing test phase means install is never
invoked. -/
theorem all_short_circuits (p : PhaseRes) :
    ((runAll p).fst = (p.configureOk && p.buildOk && p.testOk && p.installOk)) ∧
    (p.configureOk = false → (runAll p).snd = [Phase.configure]) ∧
    (p.configureOk = true → p.buildOk = false →
      (runAll p).snd = [Phase.configure, Phase.build]) ∧
    (p.configureOk = true → p.buildOk = true → p.testOk = false →
      (runAll p).snd = [Phase.configure, Phase.build, Phase.test] ∧
      Phase.install ∉ (runAll p).snd) ∧
    (p.configureOk = true → p.buildOk = true → p.testOk = true →
      (runAll p).snd = [Phase.configure, Phase.build, Phase.test, Phase.install]) := by
  obtain ⟨c, b, t, i⟩ := p
  cases c <;> cases b <;> cases t <;> cases i <;> simp [runAll]

/-- C6, witness: a run whose test phase fails never invokes install. -/
theorem all_short_circuits_witness :
    Phase.install ∉ (runAll ⟨true, true, false, true⟩).snd :=
  ((all_short_circuits ⟨true, true, false, true⟩).2.2.2.1 rfl rfl rfl).2

/-- C7.  For every configuration and subprocess behaviour, invoking the build
phase with the build directory absent returns the distinct "not configured"
outcome and never spawns the build subprocess. -/
theorem build_requires_configure (spawnOk : Bool) (cfg : Dict) :
    buildPhase false spawnOk cfg = (BuildOutcome.notConfigured, false) ∧
    BuildOutcome.notConfigured ≠ BuildOutcome.buildFailed ∧
    BuildOutcome.notConfigured ≠ BuildOutcome.success :=
  ⟨rfl, by decide, by decide⟩

/-- C2.  Every key of the default configuration is present in every
configuration derived from the defaults by preset application, interactive
editing, or persisting and re-loading. -/
theorem derived_keeps_default_keys (system machine : String) (cpu : Option Nat)
    {d : Dict} (hd : Derived system machine cpu d) (k : String)
    (hk : (get_default_config system machine cpu).get? k ≠ none) :
    d.get? k ≠ none := by
  induction hd with
  | default => exact hk
  | @preset d₀ c name _ happ ih =>
    obtain ⟨p, _, hc⟩ := apply_preset_ok happ
    subst hc
    exact Dict.get?_update_ne_none _ _ _ ih
  | @interactive d₀ ins _ ih => exact get?_interactive_ne_none ins ih
  | @loadSaved d₀ c w prev _ h ih =>
    have h' : LoadResult.ok d₀ false = LoadResult.ok c w := h
    injection h' with h1 h2
    subst h1
    exact ih
  | @loadCorruptParse c w h =>
    have h' : LoadResult.ok (get_default_config system machine cpu) true =
        LoadResult.ok c w := h
    injection h' with h1 h2
    subst h1
    exact hk

/-- C2, witness: the configuration obtained by applying the `debug` preset to
the Linux/x86_64 defaults still has the `enable_shared` key. -/
theorem derived_keeps_default_keys_witness :
    ∃ d, Derived "linux" "x86_64" (some 2) d ∧ Dict.get? d "enable_shared" ≠ none := by
  refine ⟨_, Derived.preset "debug" Derived.default rfl, ?_⟩
  exact derived_keeps_default_keys "linux" "x86_64" (some 2)
    (Derived.preset "debug" Derived.default rfl) "enable_shared" (by decide)

/-- C5, counterexample.  The default configuration is not deterministic in the
(OS, machine) pair alone: on the same `("linux", "x86_64")` pair, a CPU count
of 1 and of 2 give different configurations (they disagree on
`parallel_jobs`). -/
theorem default_config_counterexample :
    get_default_config "linux" "x86_64" (some 1) ≠
      get_default_config "linux" "x86_64" (some 2) := by
  decide

/-- C5, amended.  The default configuration is deterministic in the
(OS, machine, CPU count) triple — the job count comes from `os.cpu_count()`,
so the (OS, machine) pair alone does not fix it — and satisfies the four flag
rules: Linux with an ARM/AArch64 machine string enables NEON; Linux with an
x86_64/amd64 machine string enables SSE, SSE2 and SSE3; Darwin with an ARM64
machine string enables NEON and position-independent code; Windows enables
both static and shared library outputs. -/
theorem default_config_amended (system machine : String) (cpu : Option Nat) :
    (strLower system = "linux" →
      (strContains (strLower machine) "arm" = true ∨
        strContains (strLower machine) "aarch64" = true) →
      (get_default_config system machine cpu).get? "enable_neon" =
        some (JVal.vb true)) ∧
    (strLower system = "linux" →
      (strContains (strLower machine) "x86_64" = true ∨
        strContains (strLower machine) "amd64" = true) →
      (get_default_config system machine cpu).get? "enable_sse" =
          some (JVal.vb true) ∧
        (get_default_config system machine cpu).get? "enable_sse2" =
          some (JVal.vb true) ∧
        (get_default_config system machine cpu).get? "enable_sse3" =
          some (JVal.vb true)) ∧
    (strLower system = "darwin" → strContains (strLower machine) "arm64" = true →
      (get_default_config system machine cpu).get? "enable_neon" =
          some (JVal.vb true) ∧
        (get_default_config system machine cpu).get?
            "generate_position_independent_code" = some (JVal.vb true)) ∧
    (strLower system = "windows" →
      (get_default_config system machine cpu).get? "enable_static" =
          some (JVal.vb true) ∧
        (get_default_config system machine cpu).get? "enable_shared" =
          some (JVal.vb true)) := by
  refine ⟨?_, ?_, ?_, ?_⟩
  · intro hs hm
    rcases hm with hm | hm <;>
      simp [get_default_config, hs, hm, Dict.get?_insert_self]
  · intro hs hm
    by_cases harm : (strContains (strLower machine) "arm" ||
        strContains (strLower machine) "aarch64") = true
    · have hG : get_default_config system machine cpu =
          (baseConfig cpu).insert "enable_neon" (JVal.vb true) := by
        simp [get_default_config, hs, harm]
      rw [hG]
      exact ⟨rfl, rfl, rfl⟩
    · have hG : get_default_config system machine cpu =
          (((baseConfig cpu).insert "enable_sse" (JVal.vb true)).insert
              "enable_sse2" (JVal.vb true)).insert "enable_sse3" (JVal.vb true) := by
        rcases hm with hm | hm <;> simp [get_default_config, hs, harm, hm]
      rw [hG]
      exact ⟨rfl, rfl, rfl⟩
  · intro hs hm
    have hG : get_default_config system machine cpu =
        ((baseConfig cpu).insert "enable_neon" (JVal.vb true)).insert
          "generate_position_independent_code" (JVal.vb true) := by
      simp [get_default_config, hs, hm]
    rw [hG]
    exact ⟨rfl, rfl⟩
  · intro hs
    have hG : get_default_config system machine cpu =
        ((baseConfig cpu).insert "enable_shared" (JVal.vb true)).insert
          "enable_static" (JVal.vb true) := by
      simp [get_default_config, hs]
    rw [hG]
    exact ⟨rfl, rfl⟩

/-- C5, witness for the amended theorem on the four platform families. -/
theorem default_config_amended_witness :
    (get_default_config "Linux" "aarch64" (some 4)).get? "enable_neon" =
        some (JVal.vb true) ∧
      (get_default_config "Linux" "x86_64" (some 4)).get? "enable_sse" =
        some (JVal.vb true) ∧
      (get_default_config "Darwin" "arm64" (some 4)).get?
          "generate_position_independent_code" = some (JVal.vb true) ∧
      (get_default_config "Windows" "AMD64" (some 4)).get? "enable_shared" =
        some (JVal.vb true) :=
  ⟨(default_config_amended "Linux" "aarch64" (some 4)).1 (by decide)
      (Or.inr (by decide)),
    ((default_config_amended "Linux" "x86_64" (some 4)).2.1 (by decide)
        (Or.inl (by decide))).1,
    ((default_config_amended "Darwin" "arm64" (some 4)).2.2.1 (by decide)
        (by decide)).2,
    ((default_config_amended "Windows" "AMD64" (some 4)).2.2.2 (by decide)).2⟩

/-- C8.  Applying a preset whose name is outside the fixed set
{debug, release, minimal, android, ios} raises the "Unknown preset" error and
leaves the held configuration unmodified. -/
theorem apply_preset_unknown (st : ConfigStore) (name : String)
    (h : name ∉ presetNames) :
    applyPresetState st name = (Except.error ("Unknown preset: " ++ name), st) := by
  have h1 : ¬ ("debug" = name) :=
    fun e => h (e ▸ (by decide : "debug" ∈ presetNames))
  have h2 : ¬ ("release" = name) :=
    fun e => h (e ▸ (by decide : "release" ∈ presetNames))
  have h3 : ¬ ("minimal" = name) :=
    fun e => h (e ▸ (by decide : "minimal" ∈ presetNames))
  have h4 : ¬ ("android" = name) :=
    fun e => h (e ▸ (by decide : "android" ∈ presetNames))
  have h5 : ¬ ("ios" = name) :=
    fun e => h (e ▸ (by decide : "ios" ∈ presetNames))
  have hnone : alookup presets name = none := by
    simp only [presets, alookup]
    rw [if_neg h1, if_neg h2, if_neg h3, if_neg h4, if_neg h5]
  unfold applyPresetState
  rw [hnone]

/-- C8, witness: the unknown name `fast` is rejected with the store intact. -/
theorem apply_preset_unknown_witness :
    applyPresetState ⟨[]⟩ "fast" = (Except.error ("Unknown preset: " ++ "fast"), ⟨[]⟩) :=
  apply_preset_unknown ⟨[]⟩ "fast" (by decide)

/-- C9.  For each of the five yes/no wizard questions (static, shared, tests,
NEON, SSE) and every current configuration: an answer whose stripped,
lowercased form is `y`/`yes` sets the option true, `n`/`no` sets it false,
and anything else — the empty answer included — keeps the prior value. -/
theorem wizard_yesno_semantics (d : Dict) (ins : WizInputs) :
    (interactive_config d ins).get? "enable_static" =
        yesnoUpd (d.get? "enable_static") ins.staticAns ∧
      (interactive_config d ins).get? "enable_shared" =
        yesnoUpd (d.get? "enable_shared") ins.sharedAns ∧
      (interactive_config d ins).get? "enable_tests" =
        yesnoUpd (d.get? "enable_tests") ins.testsAns ∧
      (interactive_config d ins).get? "enable_neon" =
        yesnoUpd (d.get? "enable_neon") ins.neonAns ∧
      (interactive_config d ins).get? "enable_sse" =
        yesnoUpd (d.get? "enable_sse") ins.sseAns := by
  have hc0 : ∀ k : String, k ≠ "build_type" →
      (match pickBuildType ins.btChoices with
        | none => d
        | some bt => d.insert "build_type" (JVal.vs bt)).get? k = d.get? k := by
    intro k hk
    cases pickBuildType ins.btChoices with
    | none => rfl
    | some bt => exact Dict.get?_insert_ne _ _ _ hk
  simp only [interactive_config]
  refine ⟨?_, ?_, ?_, ?_, ?_⟩
  · rw [get?_applyYesNo_ne, get?_applyYesNo_ne, get?_applyYesNo_ne,
      get?_applyYesNo_ne, get?_applyYesNo_self, hc0] <;> decide
  · rw [get?_applyYesNo_ne, get?_applyYesNo_ne, get?_applyYesNo_ne,
      get?_applyYesNo_self, get?_applyYesNo_ne, hc0] <;> decide
  · rw [get?_applyYesNo_ne, get?_applyYesNo_ne, get?_applyYesNo_self,
      get?_applyYesNo_ne, get?_applyYesNo_ne, hc0] <;> decide
  · rw [get?_applyYesNo_ne, get?_applyYesNo_self, get?_applyYesNo_ne,
      get?_applyYesNo_ne, get?_applyYesNo_ne, hc0] <;> decide
  · rw [get?_applyYesNo_self, get?_applyYesNo_ne, get?_applyYesNo_ne,
      get?_applyYesNo_ne, get?_applyYesNo_ne, hc0] <;> decide

/-- C10.  Applying a known preset never mutates the configuration store: the
call returns a fresh mapping (the held configuration overlaid with the
preset) and leaves the store's held configuration unchanged. -/
theorem apply_preset_frame (st : ConfigStore) (name : String)
    (h : name ∈ presetNames) :
    (applyPresetState st name).snd = st ∧
    ∃ p, alookup presets name = some p ∧
      (applyPresetState st name).fst = Except.ok (Dict.update st.current_config p) := by
  simp only [presetNames, List.mem_cons, List.not_mem_nil, or_false] at h
  rcases h with h | h | h | h | h <;> subst h <;> exact ⟨rfl, _, rfl, rfl⟩

/-- C10, witness: applying the `ios` preset to a concrete store. -/
theorem apply_preset_frame_witness :
    (applyPresetState ⟨[("enable_avx", JVal.vb true)]⟩ "ios").snd =
        ⟨[("enable_avx", JVal.vb true)]⟩ ∧
      ∃ p, alookup presets "ios" = some p ∧
        (applyPresetState ⟨[("enable_avx", JVal.vb true)]⟩ "ios").fst =
          Except.ok (Dict.update [("enable_avx", JVal.vb true)] p) :=
  apply_preset_frame ⟨[("enable_avx", JVal.vb true)]⟩ "ios" (by decide)

end FFTS
